import Mathlib

/-
Verification of the DataBasePeople theme/style subsystem.

The embedding follows src/themes.py and src/styles.py.  Python dicts over
string keys become association lists looked up by `dictGet` (a failed
lookup, a Python KeyError, is `none`).  The external tkinter style engine
(`ttk.Style`) only receives configurations; it is outside the model, so
the state of a `ThemeManager` is its `current_theme` name and its
`themes` table, and methods that would push configurations to the engine
instead return the configurations they would push.
-/

namespace DataBasePeople

/-- Font descriptor, modelling a Python font tuple such as
("Segoe UI", 12, "bold"): family, point size, list of style modifiers. -/
structure Font where
  family : String
  size : Nat
  mods : List String
deriving DecidableEq, Repr

/-- A widget style property value: a plain string (color literal or a
symbolic reference such as "colors.bg"), a number (padding), or a font
descriptor. -/
inductive Value where
  | str : String → Value
  | nat : Nat → Value
  | font : Font → Value
deriving DecidableEq, Repr

/-- Python dict lookup `d[k]` on an association list; `none` models a
KeyError. -/
def dictGet {α : Type} : List (String × α) → String → Option α
  | [], _ => none
  | (k, v) :: rest, key => if k = key then some v else dictGet rest key

/-- A theme record as built by `_get_light_theme` / `_get_dark_theme`:
a name, a colors table and a fonts table. -/
structure Theme where
  name : String
  colors : List (String × String)
  fonts : List (String × Font)
deriving DecidableEq, Repr

namespace ThemeManager

/-- Embeds `ThemeManager._get_light_theme` from src/themes.py. -/
def get_light_theme : Theme :=
  { name := "light"
    colors :=
      [ ("primary", "#4a6fa5")
      , ("secondary", "#6c757d")
      , ("success", "#28a745")
      , ("danger", "#dc3545")
      , ("warning", "#ffc107")
      , ("info", "#17a2b8")
      , ("bg", "#f8f9fa")
      , ("fg", "#212529")
      , ("entry_bg", "#ffffff")
      , ("select_bg", "#e2e6ea")
      , ("select_fg", "#000000")
      , ("border", "#ced4da")
      , ("button_bg", "#e9ecef")
      , ("button_active", "#d3d9df")
      , ("text_bg", "#ffffff") ]
    fonts :=
      [ ("default", ⟨"Segoe UI", 10, []⟩)
      , ("heading", ⟨"Segoe UI", 12, ["bold"]⟩)
      , ("title", ⟨"Segoe UI", 14, ["bold"]⟩) ] }

/-- Embeds `ThemeManager._get_dark_theme` from src/themes.py. -/
def get_dark_theme : Theme :=
  { name := "dark"
    colors :=
      [ ("primary", "#5a86c2")
      , ("secondary", "#5c636a")
      , ("success", "#2ecc71")
      , ("danger", "#e74c3c")
      , ("warning", "#f39c12")
      , ("info", "#3498db")
      , ("bg", "#2d2d2d")
      , ("fg", "#e0e0e0")
      , ("entry_bg", "#1e1e1e")
      , ("select_bg", "#3d3d3d")
      , ("select_fg", "#ffffff")
      , ("border", "#444444")
      , ("button_bg", "#3d3d3d")
      , ("button_active", "#4d4d4d")
      , ("text_bg", "#252525") ]
    fonts :=
      [ ("default", ⟨"Segoe UI", 10, []⟩)
      , ("heading", ⟨"Segoe UI", 12, ["bold"]⟩)
      , ("title", ⟨"Segoe UI", 14, ["bold"]⟩) ] }

end ThemeManager

/-- The mutable state of a `ThemeManager` instance: the active theme name
and the themes table built in `__init__`.  The `ttk.Style` engine handle
is external and carries no modelled state. -/
structure ThemeManager where
  current_theme : String
  themes : List (String × Theme)
deriving DecidableEq, Repr

namespace ThemeManager

/-- Embeds `ThemeManager.__init__`: the active theme starts as "light"
and the themes table holds the light and dark records. -/
def init : ThemeManager :=
  { current_theme := "light"
    themes := [("light", get_light_theme), ("dark", get_dark_theme)] }

/-- Embeds `ThemeManager.toggle_theme`: flip `current_theme` ("dark" if
it was "light", else "light") and return the new state together with
`themes[current_theme]` (which would raise a KeyError, here `none`, if
the new name were absent). -/
def toggle_theme (self : ThemeManager) : ThemeManager × Option Theme :=
  let next := if self.current_theme = "light" then "dark" else "light"
  let self' : ThemeManager := { self with current_theme := next }
  (self', dictGet self'.themes self'.current_theme)

/-- Embeds `ThemeManager.get_current_theme`: `themes[current_theme]`. -/
def get_current_theme (self : ThemeManager) : Option Theme :=
  dictGet self.themes self.current_theme

/-- A style configuration dictionary. -/
abbrev StyleDict := List (String × Value)

/-- Embeds `ThemeManager.get_style`.  The outer `Option` models a
KeyError escaping the method; the inner `Option` is the Python return
value (`None` for an unrecognized style name). -/
def get_style (self : ThemeManager) (style_name : String) :
    Option (Option StyleDict) :=
  if style_name = "Action.TButton" then do
    let current_theme ← self.get_current_theme
    let bg ← dictGet current_theme.colors "button_bg"
    let fg ← dictGet current_theme.colors "fg"
    let f ← dictGet current_theme.fonts "default"
    pure (some
      [ ("background", Value.str bg)
      , ("foreground", Value.str fg)
      , ("font", Value.font f)
      , ("padding", Value.nat 5) ])
  else
    pure none

end ThemeManager

/-- Models Python `str.startswith(p)`: the characters of `p` are an
initial segment of the characters of `s`. -/
def startswith (s p : String) : Bool :=
  p.data.isPrefixOf s.data

/-- Helper for `pySplit`: split a character list at every separator. -/
def splitOnChar (sep : Char) : List Char → List String
  | [] => [""]
  | c :: cs =>
    match splitOnChar sep cs with
    | [] => [""]
    | r :: rs =>
      if c = sep then "" :: r :: rs
      else String.mk (c :: r.data) :: rs

/-- Models Python `s.split(sep)` for a single-character separator. -/
def pySplit (s : String) (sep : Char) : List String :=
  splitOnChar sep s.data

namespace AppStyles

open ThemeManager (StyleDict)

/-- Embeds the `self.styles` table built in `AppStyles.__init__`
(src/styles.py): logical style names mapped to property dictionaries
whose string values may be symbolic references into the active theme. -/
def styles : List (String × StyleDict) :=
  [ ("Main.TFrame", [("background", Value.str "colors.bg")])
  , ("Header.TLabel",
      [ ("font", Value.str "fonts.heading")
      , ("background", Value.str "colors.bg")
      , ("foreground", Value.str "colors.primary") ])
  , ("Action.TButton",
      [ ("font", Value.str "fonts.default")
      , ("padding", Value.nat 5)
      , ("background", Value.str "colors.button_bg")
      , ("foreground", Value.str "colors.fg") ])
  , ("Login.TLabel", [("font", Value.str "fonts.default")])
  , ("Login.TButton",
      [ ("font", Value.str "fonts.default")
      , ("padding", Value.nat 5) ])
  , ("Login.TEntry",
      [ ("font", Value.str "fonts.default")
      , ("padding", Value.nat 5) ])
  , ("Treeview.Heading",
      [ ("font", Value.str "fonts.heading")
      , ("background", Value.str "colors.button_bg")
      , ("foreground", Value.str "colors.fg") ]) ]

/-- Embeds the body of the inner loop of `AppStyles.setup_styles`: a
string starting with "colors." is looked up, via `split(".")[1]`, in the
current theme colors table; one starting with "fonts." in its fonts
table; any other value passes through unchanged. -/
def resolveValue (current_theme : Theme) (value : Value) : Option Value :=
  match value with
  | Value.str s =>
      if startswith s "colors." then do
        let color_key ← (pySplit s '.').get? 1
        let c ← dictGet current_theme.colors color_key
        pure (Value.str c)
      else if startswith s "fonts." then do
        let font_key ← (pySplit s '.').get? 1
        let f ← dictGet current_theme.fonts font_key
        pure (Value.font f)
      else
        pure value
  | v => pure v

/-- Embeds the inner loop of `AppStyles.setup_styles`: build
`resolved_config` by resolving every value of one style configuration. -/
def resolveConfig (current_theme : Theme) (style_config : StyleDict) :
    Option StyleDict :=
  style_config.mapM fun p => do
    let v ← resolveValue current_theme p.2
    pure (p.1, v)

/-- Embeds `AppStyles.setup_styles`: fetch the current theme from the
theme manager, resolve every entry of the styles table against it and
return, per style name, the resolved configuration handed to
`style.configure`. -/
def setup_styles (tm : ThemeManager) : Option (List (String × StyleDict)) := do
  let current_theme ← tm.get_current_theme
  styles.mapM fun p => do
    let r ← resolveConfig current_theme p.2
    pure (p.1, r)

end AppStyles

/-- Reachable states of a `ThemeManager`: the state built by `__init__`,
closed under `toggle_theme`, the only mutator in the source. -/
inductive Reachable : ThemeManager → Prop where
  | init : Reachable ThemeManager.init
  | toggle {tm : ThemeManager} : Reachable tm → Reachable (tm.toggle_theme).1

/-- The state reached from `init` by one toggle: the dark theme active,
the themes table untouched. -/
def ThemeManager.darkState : ThemeManager :=
  { current_theme := "dark"
    themes := [("light", ThemeManager.get_light_theme),
               ("dark", ThemeManager.get_dark_theme)] }

theorem toggle_init_eq :
    (ThemeManager.init.toggle_theme).1 = ThemeManager.darkState := by
  decide

theorem toggle_dark_eq :
    (ThemeManager.darkState.toggle_theme).1 = ThemeManager.init := by
  decide

/-- Every reachable state is the initial (light) state or the toggled
(dark) state. -/
theorem reachable_cases {tm : ThemeManager} (h : Reachable tm) :
    tm = ThemeManager.init ∨ tm = ThemeManager.darkState := by
  induction h with
  | init => exact Or.inl rfl
  | toggle _ ih =>
      rcases ih with h1 | h1 <;> subst h1
      · exact Or.inr toggle_init_eq
      · exact Or.inl toggle_dark_eq

/-- The resolution the specification describes, written from its words:
a value of the form "colors.key" becomes the active theme colors entry
at that key, a value of the form "fonts.key" the fonts entry, and any
other value passes through unchanged.  Stated independently of the code
by stripping the domain part of the reference rather than splitting. -/
def specResolve (th : Theme) (v : Value) : Option Value :=
  match v with
  | Value.str s =>
      if startswith s "colors." then
        (dictGet th.colors (String.mk (s.data.drop 7))).map Value.str
      else if startswith s "fonts." then
        (dictGet th.fonts (String.mk (s.data.drop 6))).map Value.font
      else some v
  | v => some v

/-- A value that is still a symbolic reference: a string starting with
"colors." or "fonts.". -/
def symbolicRef (v : Value) : Bool :=
  match v with
  | Value.str s => startswith s "colors." || startswith s "fonts."
  | _ => false

/-- The full correctness condition on the output of `setup_styles` for a
given manager state: it succeeds, covers the style names of the table in
order, and every resolved entry keeps its property key, equals what
`specResolve` prescribes for the original value against the active
theme, and holds no remaining symbolic reference. -/
def setupStylesMatchesSpec (tm : ThemeManager) : Bool :=
  match tm.get_current_theme, AppStyles.setup_styles tm with
  | some th, some out =>
      out.length == AppStyles.styles.length &&
      (AppStyles.styles.zip out).all fun pq =>
        pq.1.1 == pq.2.1 &&
        pq.2.2.length == pq.1.2.length &&
        (pq.1.2.zip pq.2.2).all fun ab =>
          ab.1.1 == ab.2.1 &&
          specResolve th ab.1.2 == some ab.2.2 &&
          !(symbolicRef ab.2.2)
  | _, _ => false

/-- C1: for every style name in the fixed style table and either active
theme, `setup_styles` produces a resolved dictionary in which every
"colors.key" string is replaced by the active theme colors entry at that
key, every "fonts.key" string by the fonts entry, every other value
passes through unchanged, and no string starting with "colors." or
"fonts." remains. -/
theorem setup_styles_resolves_all_refs (tm : ThemeManager)
    (h : Reachable tm) : setupStylesMatchesSpec tm = true := by
  rcases reachable_cases h with h1 | h1 <;> subst h1 <;> decide

theorem setup_styles_resolves_all_refs_witness :
    setupStylesMatchesSpec ThemeManager.init = true :=
  setup_styles_resolves_all_refs ThemeManager.init Reachable.init

/-- C2: toggling the theme twice restores the active theme name, for
every reachable manager state. -/
theorem toggle_theme_involution (tm : ThemeManager) (h : Reachable tm) :
    (((tm.toggle_theme).1.toggle_theme).1).current_theme
      = tm.current_theme := by
  rcases reachable_cases h with h1 | h1 <;> subst h1 <;> decide

theorem toggle_theme_involution_witness :
    (((ThemeManager.init.toggle_theme).1.toggle_theme).1).current_theme
      = ThemeManager.init.current_theme :=
  toggle_theme_involution ThemeManager.init Reachable.init

/-- C3: with the light theme active, resolving "Header.TLabel" yields
the heading font with the light background "#f8f9fa" and primary
"#4a6fa5"; after one toggle the same style resolves to the dark
background "#2d2d2d" and primary "#5a86c2", with the same font. -/
theorem header_label_resolution_light_dark :
    ((AppStyles.setup_styles ThemeManager.init).bind
        fun out => dictGet out "Header.TLabel")
      = some [ ("font", Value.font ⟨"Segoe UI", 12, ["bold"]⟩)
             , ("background", Value.str "#f8f9fa")
             , ("foreground", Value.str "#4a6fa5") ]
    ∧ ((AppStyles.setup_styles (ThemeManager.init.toggle_theme).1).bind
        fun out => dictGet out "Header.TLabel")
      = some [ ("font", Value.font ⟨"Segoe UI", 12, ["bold"]⟩)
             , ("background", Value.str "#2d2d2d")
             , ("foreground", Value.str "#5a86c2") ] := by
  decide

/-- C4: in every reachable state, `get_style` on "Action.TButton"
returns exactly the active theme button background, foreground, default
font and the literal padding 5, and `get_style` on "unknown" returns
the Python None. -/
theorem get_style_action_button (tm : ThemeManager) (h : Reachable tm) :
    (∃ th bg fg f,
      tm.get_current_theme = some th ∧
      dictGet th.colors "button_bg" = some bg ∧
      dictGet th.colors "fg" = some fg ∧
      dictGet th.fonts "default" = some f ∧
      tm.get_style "Action.TButton" = some (some
        [ ("background", Value.str bg)
        , ("foreground", Value.str fg)
        , ("font", Value.font f)
        , ("padding", Value.nat 5) ])) ∧
    tm.get_style "unknown" = some none := by
  rcases reachable_cases h with h1 | h1 <;> subst h1
  · exact ⟨⟨ThemeManager.get_light_theme, "#e9ecef", "#212529",
      ⟨"Segoe UI", 10, []⟩, by decide, by decide, by decide, by decide,
      by decide⟩, by decide⟩
  · exact ⟨⟨ThemeManager.get_dark_theme, "#3d3d3d", "#e0e0e0",
      ⟨"Segoe UI", 10, []⟩, by decide, by decide, by decide, by decide,
      by decide⟩, by decide⟩

theorem get_style_action_button_witness :
    (∃ th bg fg f,
      ThemeManager.init.get_current_theme = some th ∧
      dictGet th.colors "button_bg" = some bg ∧
      dictGet th.colors "fg" = some fg ∧
      dictGet th.fonts "default" = some f ∧
      ThemeManager.init.get_style "Action.TButton" = some (some
        [ ("background", Value.str bg)
        , ("foreground", Value.str fg)
        , ("font", Value.font f)
        , ("padding", Value.nat 5) ])) ∧
    ThemeManager.init.get_style "unknown" = some none :=
  get_style_action_button ThemeManager.init Reachable.init

/-- C5 counterexample: "Main.TFrame" is one of the known style names of
the fixed style table, yet `get_style` returns the Python None for it in
the initial state, so `get_style` does not return a resolved dict for
every known style name. -/
theorem get_style_main_frame_counterexample :
    (AppStyles.styles.map Prod.fst).contains "Main.TFrame" = true ∧
    ThemeManager.init.get_style "Main.TFrame" = some none := by
  decide

/-- C5 amended: `get_style` special-cases only the single name
"Action.TButton", for which it returns a resolved style dict against the
current theme; every other name, including the six other known names of
the fixed style table, gets the Python None. -/
theorem get_style_special_case_only (tm : ThemeManager)
    (h : Reachable tm) (name : String) (hn : name ≠ "Action.TButton") :
    tm.get_style name = some none ∧
    ∃ d, tm.get_style "Action.TButton" = some (some d) := by
  constructor
  · simp [ThemeManager.get_style, hn]
  · rcases reachable_cases h with h1 | h1 <;> subst h1
    · exact ⟨[ ("background", Value.str "#e9ecef")
             , ("foreground", Value.str "#212529")
             , ("font", Value.font ⟨"Segoe UI", 10, []⟩)
             , ("padding", Value.nat 5) ], by decide⟩
    · exact ⟨[ ("background", Value.str "#3d3d3d")
             , ("foreground", Value.str "#e0e0e0")
             , ("font", Value.font ⟨"Segoe UI", 10, []⟩)
             , ("padding", Value.nat 5) ], by decide⟩

theorem get_style_special_case_only_witness :
    ThemeManager.init.get_style "Main.TFrame" = some none ∧
    ∃ d, ThemeManager.init.get_style "Action.TButton" = some (some d) :=
  get_style_special_case_only ThemeManager.init Reachable.init
    "Main.TFrame" (by decide)

/-- C6: in every reachable state, `toggle_theme` moves the active name
to the other member of the pair light and dark, returns the theme record
registered under the new name, and `get_current_theme` on the new state
returns that same record. -/
theorem toggle_theme_flips_and_returns_new (tm : ThemeManager)
    (h : Reachable tm) :
    ((tm.toggle_theme).1.current_theme = "light" ∨
      (tm.toggle_theme).1.current_theme = "dark") ∧
    (tm.toggle_theme).1.current_theme ≠ tm.current_theme ∧
    ∃ th, (tm.toggle_theme).2 = some th ∧
      th.name = (tm.toggle_theme).1.current_theme ∧
      ((tm.toggle_theme).1).get_current_theme = some th := by
  rcases reachable_cases h with h1 | h1 <;> subst h1
  · exact ⟨Or.inr (by decide), by decide,
      ThemeManager.get_dark_theme, by decide, by decide, by decide⟩
  · exact ⟨Or.inl (by decide), by decide,
      ThemeManager.get_light_theme, by decide, by decide, by decide⟩

theorem toggle_theme_flips_and_returns_new_witness :
    ((ThemeManager.init.toggle_theme).1.current_theme = "light" ∨
      (ThemeManager.init.toggle_theme).1.current_theme = "dark") ∧
    (ThemeManager.init.toggle_theme).1.current_theme
      ≠ ThemeManager.init.current_theme ∧
    ∃ th, (ThemeManager.init.toggle_theme).2 = some th ∧
      th.name = (ThemeManager.init.toggle_theme).1.current_theme ∧
      ((ThemeManager.init.toggle_theme).1).get_current_theme = some th :=
  toggle_theme_flips_and_returns_new ThemeManager.init Reachable.init

/-- Every symbolic reference of one style configuration resolves, the
way `setup_styles` looks it up, to an existing key of the given theme
tables. -/
def refsResolvableIn (th : Theme) : Bool :=
  AppStyles.styles.all fun p =>
    p.2.all fun kv =>
      match kv.2 with
      | Value.str s =>
          if startswith s "colors." then
            (((pySplit s '.').get? 1).bind (dictGet th.colors)).isSome
          else if startswith s "fonts." then
            (((pySplit s '.').get? 1).bind (dictGet th.fonts)).isSome
          else true
      | _ => true

/-- C7: every symbolic reference in the style table names a key present
in both theme tables, so the lookups of `setup_styles` never fail for
either active theme: resolution succeeds from the initial light state
and from the toggled dark state. -/
theorem style_refs_resolve_in_both_themes :
    refsResolvableIn ThemeManager.get_light_theme = true ∧
    refsResolvableIn ThemeManager.get_dark_theme = true ∧
    (AppStyles.setup_styles ThemeManager.init).isSome = true ∧
    (AppStyles.setup_styles ThemeManager.darkState).isSome = true := by
  decide

/-- C8: the themes table built at initialization is never modified: in
every reachable state it still equals the initial table, `toggle_theme`
leaves it unchanged, and the toggled state differs from the old one in
the `current_theme` field alone.  `get_current_theme` and `get_style`
are read-only by construction here: they map a state to a value and
return no state. -/
theorem themes_table_immutable (tm : ThemeManager) (h : Reachable tm) :
    tm.themes = ThemeManager.init.themes ∧
    (tm.toggle_theme).1.themes = tm.themes ∧
    (tm.toggle_theme).1 =
      { current_theme := (tm.toggle_theme).1.current_theme
        themes := tm.themes } := by
  rcases reachable_cases h with h1 | h1 <;> subst h1 <;>
    exact ⟨by decide, by decide, by decide⟩

theorem themes_table_immutable_witness :
    ThemeManager.init.themes = ThemeManager.init.themes ∧
    (ThemeManager.init.toggle_theme).1.themes = ThemeManager.init.themes ∧
    (ThemeManager.init.toggle_theme).1 =
      { current_theme := (ThemeManager.init.toggle_theme).1.current_theme
        themes := ThemeManager.init.themes } :=
  themes_table_immutable ThemeManager.init Reachable.init

/-- C9: in every reachable state the active name is "light" or "dark",
it starts as "light", and the table lookups of `get_current_theme` and
`toggle_theme` always find an entry. -/
theorem current_theme_invariant (tm : ThemeManager) (h : Reachable tm) :
    (tm.current_theme = "light" ∨ tm.current_theme = "dark") ∧
    ThemeManager.init.current_theme = "light" ∧
    (tm.get_current_theme).isSome = true ∧
    ((tm.toggle_theme).2).isSome = true := by
  rcases reachable_cases h with h1 | h1 <;> subst h1
  · exact ⟨Or.inl (by decide), by decide, by decide, by decide⟩
  · exact ⟨Or.inr (by decide), by decide, by decide, by decide⟩

theorem current_theme_invariant_witness :
    (ThemeManager.init.current_theme = "light" ∨
      ThemeManager.init.current_theme = "dark") ∧
    ThemeManager.init.current_theme = "light" ∧
    (ThemeManager.init.get_current_theme).isSome = true ∧
    ((ThemeManager.init.toggle_theme).2).isSome = true :=
  current_theme_invariant ThemeManager.init Reachable.init

/-- Association lists with the same key sequence succeed and fail on
exactly the same lookups. -/
theorem dictGet_isSome_of_keys_eq {α β : Type}
    (l₁ : List (String × α)) (l₂ : List (String × β))
    (hk : l₁.map Prod.fst = l₂.map Prod.fst) (k : String) :
    (dictGet l₁ k).isSome = (dictGet l₂ k).isSome := by
  induction l₁ generalizing l₂ with
  | nil =>
      cases l₂ with
      | nil => rfl
      | cons b bs => simp at hk
  | cons a as ih =>
      cases l₂ with
      | nil => simp at hk
      | cons b bs =>
          simp only [List.map_cons, List.cons.injEq] at hk
          obtain ⟨h1, h2⟩ := hk
          simp only [dictGet, h1]
          by_cases hbk : b.1 = k
          · simp [hbk]
          · simp [hbk, ih bs h2]

/-- C10: the light and dark themes expose the same color keys in the
same order and identical fonts tables, hence every color key lookup
succeeds in one theme exactly when it succeeds in the other, and every
font lookup gives the same descriptor in both themes, so toggling never
changes a resolved font value. -/
theorem theme_tables_aligned :
    ThemeManager.get_light_theme.colors.map Prod.fst
      = ThemeManager.get_dark_theme.colors.map Prod.fst ∧
    ThemeManager.get_light_theme.fonts
      = ThemeManager.get_dark_theme.fonts ∧
    (∀ k, (dictGet ThemeManager.get_light_theme.colors k).isSome
        = (dictGet ThemeManager.get_dark_theme.colors k).isSome) ∧
    (∀ k, dictGet ThemeManager.get_light_theme.fonts k
        = dictGet ThemeManager.get_dark_theme.fonts k) := by
  refine ⟨by decide, by decide, ?_, ?_⟩
  · intro k
    exact dictGet_isSome_of_keys_eq _ _ (by decide) k
  · intro k
    rw [show ThemeManager.get_light_theme.fonts
          = ThemeManager.get_dark_theme.fonts from by decide]

end DataBasePeople
